import Mathlib

/-!
Verification of the Hitherto context-retrieval core against its specification.

The Selection State definitions below are a shallow embedding of the frontend
`ChatProvider` (`computeOC`, `toggleContext`, `setFilters` plus the effect that
re-derives each pinned item's flag when the filters change).  JavaScript date
strings are abstracted to integer timestamps; an absent or empty-string optional
value is `none`.  The Context Assembly Service definitions further down are
modelled from the spec, since the backend handler is not among the sources here.
-/

namespace Hitherto

/-- One calendar day, as the timestamp increment used on the exclusive end bound. -/
def oneDay : Int := 86400000

/-- Advancing a timestamp by one day (the `setDate(getDate() + 1)` step). -/
def addOneDay (t : Int) : Int := t + oneDay

/-- Active filters of the chat context provider.  In the source all three fields
are strings defaulting to `""`; the empty string is falsy, so here `category`
stays a string (`""` meaning unset) while the two dates are abstracted to
`Option Int` (`none` meaning the empty string, `some t` a parsed date). -/
structure Filters where
  category : String
  start : Option Int
  «end» : Option Int
  deriving DecidableEq, Repr

/-- A pinned selection item (`ChatCtxItem` in the source): document id, title,
cached chunk contents, source category, source received-timestamp, and the
derived out-of-context flag (`oc?: boolean`, hence `Option Bool`). -/
structure ChatCtxItem where
  messageId : String
  title : String
  chunks : List String
  category : Option String
  receivedAt : Option Int
  oc : Option Bool
  deriving DecidableEq, Repr

/-- Truthiness of an optional string value: present and non-empty. -/
def strTruthy : Option String → Bool
  | none => false
  | some s => s != ""

/-- The out-of-context computation of the provider: each clause fires only when
the filter field is truthy AND the corresponding item field is truthy, mirroring
the guards `f.category && item.category && ...` and `item.receivedAt && ...`. -/
def computeOC (item : ChatCtxItem) (f : Filters) : Bool :=
  (f.category != "" &&
    (match item.category with
      | some s => s != "" && s != f.category
      | none => false)) ||
  (match f.start, item.receivedAt with
    | some sd, some t => decide (t < sd)
    | _, _ => false) ||
  (match f.«end», item.receivedAt with
    | some ed, some t => decide (addOneDay ed ≤ t)
    | _, _ => false)

/-- The out-of-context predicate exactly as the spec words it, kept separate so
it can be compared with `computeOC`: true if (`f.category` is set AND
item.category ≠ f.category) OR (`f.start` is set AND item.receivedAt < f.start)
OR (`f.end` is set AND item.receivedAt ≥ f.end + 1 day); an absent receivedAt is
before or after nothing, while an absent category still differs from a set
filter category. -/
def specOC (item : ChatCtxItem) (f : Filters) : Bool :=
  (f.category != "" && item.category != some f.category) ||
  (match f.start, item.receivedAt with
    | some sd, some t => decide (t < sd)
    | _, _ => false) ||
  (match f.«end», item.receivedAt with
    | some ed, some t => decide (addOneDay ed ≤ t)
    | _, _ => false)

/-- C1 (counterexample): an item whose category is null is declared out of
context by the spec predicate once a category filter is set, yet `computeOC`
leaves its flag false, because the code additionally requires `item.category`
to be truthy.  So the claimed biconditional fails at this input. -/
theorem computeOC_spec_mismatch :
    computeOC ⟨"D1", "Doc 1", [], none, none, none⟩ ⟨"tech", none, none⟩ = false ∧
    specOC ⟨"D1", "Doc 1", [], none, none, none⟩ ⟨"tech", none, none⟩ = true := by
  decide

/-- C1 (amended): the flag computed by `computeOC` is true iff (the category
filter is set AND the item's category is a non-empty string that differs from
it) OR (the start filter is set AND the item's receivedAt is present and earlier)
OR (the end filter is set AND the item's receivedAt is present and at or after
end + 1 day); clauses whose item field is null/absent are false. -/
theorem computeOC_characterization (item : ChatCtxItem) (f : Filters) :
    computeOC item f = true ↔
      (f.category ≠ "" ∧ ∃ s, item.category = some s ∧ s ≠ "" ∧ s ≠ f.category) ∨
      (∃ sd t, f.start = some sd ∧ item.receivedAt = some t ∧ t < sd) ∨
      (∃ ed t, f.«end» = some ed ∧ item.receivedAt = some t ∧ addOneDay ed ≤ t) := by
  obtain ⟨mid, tl, ch, cat, ra, oc⟩ := item
  obtain ⟨fc, fs, fe⟩ := f
  cases cat <;> cases ra <;> cases fs <;> cases fe <;>
    simp [computeOC, Bool.or_eq_true, Bool.and_eq_true, bne_iff_ne, and_assoc, or_assoc]

/-- The toggle operation of the provider: if some pinned item shares the
document id, drop every such item; otherwise append the item with its flag
freshly derived from the current filters (`{ ...c, oc }`). -/
def toggleContext (c : ChatCtxItem) (filters : Filters) (ctx : List ChatCtxItem) :
    List ChatCtxItem :=
  if ctx.any (fun i => i.messageId == c.messageId) then
    ctx.filter (fun i => i.messageId != c.messageId)
  else
    ctx ++ [{ c with oc := some (computeOC c filters) }]

/-- A chat message as carried by the provider (id, role, text, and the two
optional display fields). -/
structure ChatMessage where
  id : String
  role : String
  text : String
  timestamp : Option String
  source : Option String
  deriving DecidableEq, Repr

/-- A partial filter update (`Partial<Filters>`): a `none` field is absent and
keeps the current value. -/
structure PartialFilters where
  category : Option String
  start : Option (Option Int)
  «end» : Option (Option Int)
  deriving DecidableEq, Repr

/-- The object-spread merge `{ ...flts, ...f }` of a partial update into the
current filters. -/
def mergeFilters (f : Filters) (p : PartialFilters) : Filters :=
  { category := p.category.getD f.category
    start := p.start.getD f.start
    «end» := p.«end».getD f.«end» }

/-- The flag re-derivation pass run by the provider whenever the filters
change: `ctx.map (i => ({ ...i, oc: computeOC(i, filters) }))`. -/
def recomputeOC (f : Filters) (ctx : List ChatCtxItem) : List ChatCtxItem :=
  ctx.map (fun i => { i with oc := some (computeOC i f) })

/-- The in-memory state held by the provider: pinned items, filters, messages. -/
structure State where
  context : List ChatCtxItem
  filters : Filters
  messages : List ChatMessage
  deriving DecidableEq, Repr

/-- State update performed by `toggleContext` against the current filters. -/
def toggleStep (c : ChatCtxItem) (s : State) : State :=
  { s with context := toggleContext c s.filters s.context }

/-- The bare `setFilters` of the provider: merge the partial update only. -/
def setFilters (p : PartialFilters) (s : State) : State :=
  { s with filters := mergeFilters s.filters p }

/-- The effect hook that re-derives every pinned item's flag from the current
filters after they change. -/
def recomputeEffect (s : State) : State :=
  { s with context := recomputeOC s.filters s.context }

/-- A complete filter update as observed after the render cycle: the merge of
`setFilters` followed by the flag re-derivation effect. -/
def setFiltersStep (p : PartialFilters) (s : State) : State :=
  recomputeEffect (setFilters p s)

/-- Appending a chat message (`pushMessage`); it never touches the selection. -/
def pushMessageStep (m : ChatMessage) (s : State) : State :=
  { s with messages := s.messages ++ [m] }

/-- Modelled from the spec: `clearContext` is destructured and invoked by
`ChatPanel` but its implementation is absent from the provided provider
sources; the spec says clearing selection removes all pinned items
unconditionally, leaving the rest of the state alone. -/
def clearContextStep (s : State) : State :=
  { s with context := [] }

/-- C2 (counterexample): toggling a pinned item twice does not restore the
original sequence when that item is not the last one pinned — the item is
removed and then re-appended at the end, so `[D1, D2]` becomes `[D2, D1]`. -/
theorem toggle_twice_moves_item :
    toggleContext ⟨"D1", "Doc 1", [], some "econ", some 100, some false⟩ ⟨"", none, none⟩
        (toggleContext ⟨"D1", "Doc 1", [], some "econ", some 100, some false⟩ ⟨"", none, none⟩
          [⟨"D1", "Doc 1", [], some "econ", some 100, some false⟩,
           ⟨"D2", "Doc 2", [], some "tech", some 200, some false⟩]) ≠
      [⟨"D1", "Doc 1", [], some "econ", some 100, some false⟩,
       ⟨"D2", "Doc 2", [], some "tech", some 200, some false⟩] := by
  decide

/-- C2 (amended): toggling an item twice restores the original pinned sequence
exactly whenever no currently pinned item carries the same document id — the
first toggle appends the item and the second removes precisely it. -/
theorem toggle_toggle_of_not_pinned (ctx : List ChatCtxItem) (c : ChatCtxItem) (f : Filters)
    (h : ctx.any (fun i => i.messageId == c.messageId) = false) :
    toggleContext c f (toggleContext c f ctx) = ctx := by
  have h1 : toggleContext c f ctx = ctx ++ [{ c with oc := some (computeOC c f) }] := by
    simp only [toggleContext, h, Bool.false_eq_true, if_false]
  rw [h1]
  have h2 : (ctx ++ [{ c with oc := some (computeOC c f) }]).any
      (fun i => i.messageId == c.messageId) = true := by
    simp [List.any_append]
  simp only [toggleContext, h2, if_true]
  rw [List.filter_append]
  have h3 : ctx.filter (fun i => i.messageId != c.messageId) = ctx := by
    rw [List.filter_eq_self]
    intro a ha
    have := (List.any_eq_false.mp h) a ha
    simpa [bne_iff_ne] using this
  simp [h3]

/-- C2 (witness for the amended theorem): a concrete double toggle on a list
that does not contain the toggled id. -/
theorem toggle_toggle_of_not_pinned_witness :
    toggleContext ⟨"D2", "Doc 2", [], some "tech", some 200, none⟩ ⟨"", none, none⟩
        (toggleContext ⟨"D2", "Doc 2", [], some "tech", some 200, none⟩ ⟨"", none, none⟩
          [⟨"D1", "Doc 1", [], some "econ", some 100, some false⟩]) =
      [⟨"D1", "Doc 1", [], some "econ", some 100, some false⟩] :=
  toggle_toggle_of_not_pinned
    [⟨"D1", "Doc 1", [], some "econ", some 100, some false⟩]
    ⟨"D2", "Doc 2", [], some "tech", some 200, none⟩ ⟨"", none, none⟩ (by decide)

/-- Changing the stored flag of an item never changes what `computeOC` derives
for it: the predicate reads only the category and the received timestamp. -/
theorem computeOC_update_oc (i : ChatCtxItem) (v : Option Bool) (f : Filters) :
    computeOC { i with oc := v } f = computeOC i f := by
  cases i; rfl

/-- C3: a filter update merges the partial values into the current filters and
then every pinned item's flag equals the pure predicate evaluated against the
new filters — no item retains a flag computed under the old filters. -/
theorem setFilters_recomputes (p : PartialFilters) (s : State) :
    (setFiltersStep p s).filters = mergeFilters s.filters p ∧
    ∀ j ∈ (setFiltersStep p s).context,
      j.oc = some (computeOC j (mergeFilters s.filters p)) := by
  refine ⟨rfl, ?_⟩
  intro j hj
  simp only [setFiltersStep, recomputeEffect, setFilters, recomputeOC, List.mem_map] at hj
  obtain ⟨i, _, rfl⟩ := hj
  simp [computeOC_update_oc]

/-- C3 (witness): pin one "econ" item, then set the category filter to "tech";
the single resulting item carries the flag the predicate derives from the new
filters. -/
theorem setFilters_recomputes_witness :
    (ChatCtxItem.mk "D1" "Doc 1" ["c"] (some "econ") (some 5) (some true)).oc =
      some (computeOC (ChatCtxItem.mk "D1" "Doc 1" ["c"] (some "econ") (some 5) (some true))
        (mergeFilters (Filters.mk "" none none)
          (PartialFilters.mk (some "tech") none none))) :=
  (setFilters_recomputes (PartialFilters.mk (some "tech") none none)
      (State.mk [ChatCtxItem.mk "D1" "Doc 1" ["c"] (some "econ") (some 5) none]
        (Filters.mk "" none none) [])).2
    (ChatCtxItem.mk "D1" "Doc 1" ["c"] (some "econ") (some 5) (some true)) (by decide)

/-- The document ids of the pinned items, in pin order. -/
def contextIds (ctx : List ChatCtxItem) : List String :=
  ctx.map (fun i => i.messageId)

/-- States reachable from the provider's initial state by its operations:
toggling, a filter update (with its re-derivation effect), pushing a message,
and clearing the selection. -/
inductive Reachable : State → Prop where
  | init : Reachable ⟨[], ⟨"", none, none⟩, []⟩
  | toggle (c : ChatCtxItem) {s : State} : Reachable s → Reachable (toggleStep c s)
  | setF (p : PartialFilters) {s : State} : Reachable s → Reachable (setFiltersStep p s)
  | push (m : ChatMessage) {s : State} : Reachable s → Reachable (pushMessageStep m s)
  | clear {s : State} : Reachable s → Reachable (clearContextStep s)

/-- Toggling preserves duplicate-freeness of the pinned document ids: the
removal branch filters the list, and the append branch fires only when the id
is not yet present. -/
theorem nodup_contextIds_toggle (c : ChatCtxItem) (f : Filters) (ctx : List ChatCtxItem)
    (h : (contextIds ctx).Nodup) : (contextIds (toggleContext c f ctx)).Nodup := by
  by_cases hex : ctx.any (fun i => i.messageId == c.messageId) = true
  · simp only [toggleContext, hex, if_true]
    exact List.Nodup.sublist (List.Sublist.map _ (List.filter_sublist ctx)) h
  · rw [Bool.not_eq_true] at hex
    simp only [toggleContext, hex, Bool.false_eq_true, if_false]
    rw [contextIds, List.map_append]
    rw [List.nodup_append]
    refine ⟨h, by simp, ?_⟩
    intro x hx hx1
    simp only [List.map_cons, List.map_nil, List.mem_cons, List.not_mem_nil, or_false] at hx1
    subst hx1
    obtain ⟨i, hi, hieq⟩ := List.mem_map.mp hx
    exact (List.any_eq_false.mp hex) i hi (by simp [hieq])

/-- The re-derivation pass changes no document id. -/
theorem contextIds_recomputeOC (f : Filters) (ctx : List ChatCtxItem) :
    contextIds (recomputeOC f ctx) = contextIds ctx := by
  simp [contextIds, recomputeOC, List.map_map, Function.comp_def]

/-- C10: in every reachable provider state the pinned selection never contains
two items with the same document id — toggling either filters the id out or
appends a fresh id, the filter-change pass maps over items without adding or
removing any, and the other operations leave the selection alone or empty it. -/
theorem reachable_nodup_contextIds (s : State) (h : Reachable s) :
    (contextIds s.context).Nodup := by
  induction h with
  | init => simp [contextIds]
  | toggle c _ ih => exact nodup_contextIds_toggle c _ _ ih
  | setF p _ ih =>
      simpa [setFiltersStep, recomputeEffect, setFilters, contextIds_recomputeOC] using ih
  | push m _ ih => simpa [pushMessageStep] using ih
  | clear _ => simp [clearContextStep, contextIds]

/-- C10 (witness): the state reached by two toggles from the initial state has
duplicate-free pinned ids. -/
theorem reachable_nodup_contextIds_witness :
    (contextIds (toggleStep ⟨"D2", "Doc 2", [], some "tech", some 200, none⟩
        (toggleStep ⟨"D1", "Doc 1", [], some "econ", some 100, none⟩
          ⟨[], ⟨"", none, none⟩, []⟩)).context).Nodup :=
  reachable_nodup_contextIds _
    (Reachable.toggle ⟨"D2", "Doc 2", [], some "tech", some 200, none⟩
      (Reachable.toggle ⟨"D1", "Doc 1", [], some "econ", some 100, none⟩ Reachable.init))

/-- C7: clearing the selection empties the pinned list unconditionally and
leaves the filters and the message log untouched. -/
theorem clearContext_empties (s : State) :
    (clearContextStep s).context = [] ∧ (clearContextStep s).filters = s.filters ∧
      (clearContextStep s).messages = s.messages :=
  ⟨rfl, rfl, rfl⟩

/-- A stored text chunk: identifier (document id + sequence index), content,
owning document's category and received timestamp. -/
structure Chunk where
  docId : String
  seqIdx : Nat
  content : String
  category : Option String
  receivedAt : Int
  deriving DecidableEq, Repr

/-- The body of a `POST /context` call: query text, explicit document ids,
category filter list, optional date range, and the result bound `k`. -/
structure ContextRequest where
  query : String
  messageIds : List String
  categories : List String
  startDate : Option Int
  endDate : Option Int
  k : Int
  deriving DecidableEq, Repr

/-- The failure taxonomy of the assembly operation. -/
inductive ContextError where
  | invalidRequest
  | upstreamUnavailable
  deriving DecidableEq, Repr

/-- The collaborators of the assembly service: the read-only chunk store, the
availability of the embedder and of the similarity index, the embedding
function, and the similarity score of a chunk against a query vector. -/
structure Upstream where
  store : List Chunk
  embedderUp : Bool
  indexUp : Bool
  embedFn : String → List Int
  simFn : List Int → Chunk → Int

/-- The hard maximum the result bound is clamped to. -/
def hardMax : Nat := 20

/-- The effective result bound: the requested `k` clamped to `hardMax`. -/
def effectiveK (req : ContextRequest) : Nat :=
  min req.k.toNat hardMax

/-- Whether a query string is empty after trimming, i.e. all whitespace. -/
def trimEmpty (s : String) : Bool :=
  s.data.all Char.isWhitespace

/-- Whether a chunk's owning document matches ALL supplied filters: category
equality when a category is given, and received timestamp within
[start, end + 1 day) for whichever bounds are given. -/
def matchesFilters (req : ContextRequest) (c : Chunk) : Bool :=
  (req.categories.isEmpty ||
    (match c.category with
      | some s => req.categories.contains s
      | none => false)) &&
  (match req.startDate with
    | some sd => decide (sd ≤ c.receivedAt)
    | none => true) &&
  (match req.endDate with
    | some ed => decide (c.receivedAt < addOneDay ed)
    | none => true)

/-- Modelled from the spec: scoping resolution of the Context Assembly Service
(the backend `/context` handler is not among the provided sources).  First
match wins: explicit selection when `messageIds` is non-empty, then the filter
conjunction when any filter is set, otherwise the entire chunk store. -/
def resolveCandidates (store : List Chunk) (req : ContextRequest) : List Chunk :=
  if req.messageIds ≠ [] then
    store.filter (fun c => req.messageIds.contains c.docId)
  else if req.categories ≠ [] ∨ req.startDate.isSome ∨ req.endDate.isSome then
    store.filter (matchesFilters req)
  else store

/-- Ranking order: descending similarity, ties broken by chunk id ascending
(document id, then sequence index) to keep results deterministic. -/
def chunkLe (score : Chunk → Int) (a b : Chunk) : Bool :=
  decide (score b < score a) ||
  (score a == score b &&
    (decide (a.docId < b.docId) || (a.docId == b.docId && decide (a.seqIdx ≤ b.seqIdx))))

/-- Ordered insertion used by the ranking sort. -/
def insertRanked (le : Chunk → Chunk → Bool) (c : Chunk) : List Chunk → List Chunk
  | [] => [c]
  | x :: xs => if le c x then c :: x :: xs else x :: insertRanked le c xs

/-- Insertion sort of the candidate chunks under a ranking order. -/
def rankSort (le : Chunk → Chunk → Bool) : List Chunk → List Chunk
  | [] => []
  | x :: xs => insertRanked le x (rankSort le xs)

/-- Modelled from the spec: `assembleContext` of the Context Assembly Service
(the backend `/context` handler is not among the provided sources).  It fails
with `InvalidRequest` when the query is empty after trimming or the bound is
non-positive, fails with `UpstreamUnavailable` when the embedder or the index
is unreachable, and otherwise embeds the query once, ranks the resolved
candidates by descending similarity with chunk-id tie-break, and returns the
top chunks truncated to the bound clamped at `hardMax`. -/
def assembleContext (up : Upstream) (req : ContextRequest) :
    Except ContextError (List Chunk) :=
  if trimEmpty req.query || decide (req.k ≤ 0) then .error .invalidRequest
  else if !up.embedderUp then .error .upstreamUnavailable
  else if !up.indexUp then .error .upstreamUnavailable
  else
    let qv := up.embedFn req.query
    .ok ((rankSort (chunkLe (up.simFn qv)) (resolveCandidates up.store req)).take
      (effectiveK req))

/-- Membership in an ordered insertion is membership in the inserted element or
the tail. -/
theorem mem_insertRanked (le : Chunk → Chunk → Bool) (c a : Chunk) (l : List Chunk) :
    a ∈ insertRanked le c l ↔ a = c ∨ a ∈ l := by
  induction l with
  | nil => simp [insertRanked]
  | cons x xs ih =>
      by_cases h : le c x = true
      · simp [insertRanked, h]
      · rw [Bool.not_eq_true] at h
        simp only [insertRanked, h, Bool.false_eq_true, if_false, List.mem_cons, ih]
        tauto

/-- The ranking sort permutes the candidates, so membership is unchanged. -/
theorem mem_rankSort (le : Chunk → Chunk → Bool) (a : Chunk) (l : List Chunk) :
    a ∈ rankSort le l ↔ a ∈ l := by
  induction l with
  | nil => simp [rankSort]
  | cons x xs ih => simp [rankSort, mem_insertRanked, ih]

/-- C9: a request whose query is empty after trimming, or whose bound is
non-positive, makes the assembly operation fail with `InvalidRequest`. -/
theorem assembleContext_invalidRequest (up : Upstream) (req : ContextRequest)
    (h : trimEmpty req.query = true ∨ req.k ≤ 0) :
    assembleContext up req = .error .invalidRequest := by
  rcases h with h | h <;> simp [assembleContext, h]

/-- C9 (witness): an all-whitespace query fails with `InvalidRequest`. -/
theorem assembleContext_invalidRequest_witness :
    assembleContext (Upstream.mk [] true true (fun _ => []) (fun _ _ => 0))
        (ContextRequest.mk "   " [] [] none none 5) = .error .invalidRequest :=
  assembleContext_invalidRequest (Upstream.mk [] true true (fun _ => []) (fun _ _ => 0))
    (ContextRequest.mk "   " [] [] none none 5) (Or.inl (by decide))

/-- C5: on a valid request, an unreachable embedder or index surfaces as the
distinct failure `UpstreamUnavailable`, and in particular is never converted
into an empty (or any) successful result. -/
theorem assembleContext_upstreamUnavailable (up : Upstream) (req : ContextRequest)
    (hq : trimEmpty req.query = false) (hk : 0 < req.k)
    (hdown : up.embedderUp = false ∨ up.indexUp = false) :
    assembleContext up req = .error .upstreamUnavailable ∧
      ∀ cs : List Chunk, assembleContext up req ≠ .ok cs := by
  have hcond : (trimEmpty req.query || decide (req.k ≤ 0)) = false := by
    simp only [hq, Bool.false_or, decide_eq_false_iff_not]
    omega
  have hmain : assembleContext up req = .error .upstreamUnavailable := by
    rcases hdown with h | h
    · simp [assembleContext, hcond, h]
    · cases hemb : up.embedderUp <;> simp [assembleContext, hcond, h, hemb]
  exact ⟨hmain, fun cs hcs => by rw [hmain] at hcs; exact Except.noConfusion hcs⟩

/-- C5 (witness): with the embedder down, a valid request fails with
`UpstreamUnavailable`. -/
theorem assembleContext_upstreamUnavailable_witness :
    assembleContext (Upstream.mk [] false true (fun _ => []) (fun _ _ => 0))
        (ContextRequest.mk "rates" [] [] none none 5) = .error .upstreamUnavailable :=
  (assembleContext_upstreamUnavailable
      (Upstream.mk [] false true (fun _ => []) (fun _ _ => 0))
      (ContextRequest.mk "rates" [] [] none none 5)
      (by decide) (by decide) (Or.inl rfl)).1

/-- C8: a successful result never holds more chunks than the effective bound,
the effective bound is the requested one clamped to `hardMax`, and so the
result also never exceeds the requested bound itself. -/
theorem assembleContext_bounded (up : Upstream) (req : ContextRequest) (cs : List Chunk)
    (h : assembleContext up req = .ok cs) :
    cs.length ≤ effectiveK req ∧ effectiveK req ≤ hardMax ∧ cs.length ≤ req.k.toNat := by
  unfold assembleContext at h
  split at h
  · exact absurd h (by simp)
  · split at h
    · exact absurd h (by simp)
    · split at h
      · exact absurd h (by simp)
      · simp only [Except.ok.injEq] at h
        subst h
        refine ⟨List.length_take_le _ _, Nat.min_le_right _ _, ?_⟩
        exact le_trans (List.length_take_le _ _) (Nat.min_le_left _ _)

/-- C8 (witness): a successful call on an empty store returns no chunks, within
both bounds. -/
theorem assembleContext_bounded_witness :
    ([] : List Chunk).length ≤ effectiveK (ContextRequest.mk "rates" [] [] none none 5) ∧
      effectiveK (ContextRequest.mk "rates" [] [] none none 5) ≤ hardMax ∧
      ([] : List Chunk).length ≤ (5 : Int).toNat :=
  assembleContext_bounded (Upstream.mk [] true true (fun _ => []) (fun _ _ => 0))
    (ContextRequest.mk "rates" [] [] none none 5) [] rfl

/-- C4: when explicit document ids are supplied, every returned chunk belongs
to one of the listed documents, and the call computes the same result as the
same request with its category and date filters erased — explicit selection
mode overrides filtered mode. -/
theorem assembleContext_explicit (up : Upstream) (req : ContextRequest) (cs : List Chunk)
    (hids : req.messageIds ≠ []) (h : assembleContext up req = .ok cs) :
    (∀ c ∈ cs, c.docId ∈ req.messageIds) ∧
      assembleContext up req =
        assembleContext up { req with categories := [], startDate := none, endDate := none } := by
  have hres : resolveCandidates up.store req =
      up.store.filter (fun c => req.messageIds.contains c.docId) := by
    simp [resolveCandidates, hids]
  constructor
  · intro c hc
    unfold assembleContext at h
    split at h
    · exact absurd h (by simp)
    · split at h
      · exact absurd h (by simp)
      · split at h
        · exact absurd h (by simp)
        · simp only [Except.ok.injEq] at h
          subst h
          have hmem : c ∈ rankSort (chunkLe (up.simFn (up.embedFn req.query)))
              (resolveCandidates up.store req) := List.mem_of_mem_take hc
          rw [mem_rankSort, hres] at hmem
          have hcont := (List.mem_filter.mp hmem).2
          simpa using hcont
  · simp [assembleContext, resolveCandidates, effectiveK, hids]

/-- C4 (witness): Scenario B — a request naming only D2 while carrying an
"econ" category filter returns D2's chunk, which belongs to the listed ids. -/
theorem assembleContext_explicit_witness :
    (Chunk.mk "D2" 0 "tech text" (some "tech") 200).docId ∈ ["D2"] :=
  (assembleContext_explicit
      (Upstream.mk [Chunk.mk "D1" 0 "econ text" (some "econ") 100,
        Chunk.mk "D2" 0 "tech text" (some "tech") 200] true true
        (fun _ => []) (fun _ _ => 0))
      (ContextRequest.mk "rates" ["D2"] ["econ"] none none 5)
      [Chunk.mk "D2" 0 "tech text" (some "tech") 200]
      (by decide) rfl).1
    (Chunk.mk "D2" 0 "tech text" (some "tech") 200) (by decide)

/-- The optional filters the LLM chat hook receives (`FilterOptions`): all
fields optional, with dates abstracted to parsed timestamps. -/
structure FilterOptions where
  category : Option String
  start : Option Int
  «end» : Option Int
  deriving DecidableEq, Repr

/-- The context retrieval decision of `useLLMChat.send`: with selected ids it
posts an explicit request, with any truthy filter it posts a filtered request,
and otherwise it posts no retrieval request at all. -/
def sendContextRequest (text : String) (ids : List String) (filters : FilterOptions) :
    Option ContextRequest :=
  if ids.length > 0 then
    some (ContextRequest.mk text ids [] none none 5)
  else if strTruthy filters.category || filters.start.isSome || filters.«end».isSome then
    some (ContextRequest.mk text []
      (if strTruthy filters.category then [filters.category.getD ""] else [])
      filters.start filters.«end» 5)
  else none

/-- The context retrieval request built by `ChatPanel.ask`: explicit ids when
items are pinned, the filter fields when any filter is set, and otherwise an
unscoped request — one retrieval call in every case. -/
def askContextRequest (text : String) (context : List ChatCtxItem) (filters : Filters) :
    ContextRequest :=
  if context.length > 0 then
    ContextRequest.mk text (context.map (fun c => c.messageId)) [] none none 5
  else if filters.category != "" || filters.start.isSome || filters.«end».isSome then
    ContextRequest.mk text []
      (if filters.category != "" then [filters.category] else [])
      filters.start filters.«end» 5
  else ContextRequest.mk text [] [] none none 5

/-- C6 (counterexample): with no pinned ids and no filters set, the LLM chat
hook makes no retrieval call at all, contradicting the claim that a retrieval
call is still made in unfiltered mode. -/
theorem send_skips_unfiltered_retrieval :
    sendContextRequest "rates" [] (FilterOptions.mk none none none) = none := by
  decide

/-- C6 (amended): with no pinned ids and no filters set, the ask path still
issues a retrieval request whose candidate set resolves to the entire chunk
store, while the LLM chat hook's send path issues no retrieval request. -/
theorem unfiltered_mode_candidates (text : String) (store : List Chunk)
    (f : Filters) (fo : FilterOptions)
    (hc : f.category = "") (hs : f.start = none) (he : f.«end» = none)
    (hoc : fo.category = none) (hos : fo.start = none) (hoe : fo.«end» = none) :
    resolveCandidates store (askContextRequest text [] f) = store ∧
      sendContextRequest text [] fo = none := by
  obtain ⟨fc, fs, fe⟩ := f
  obtain ⟨oc, os, oe⟩ := fo
  simp only at hc hs he hoc hos hoe
  subst hc hs he hoc hos hoe
  exact ⟨by simp [askContextRequest, resolveCandidates],
    by simp [sendContextRequest, strTruthy]⟩

/-- C6 (witness for the amended theorem): a one-chunk store is returned whole
by the ask path's unscoped request while the send path stays silent. -/
theorem unfiltered_mode_candidates_witness :
    resolveCandidates [Chunk.mk "D1" 0 "t" (some "econ") 100]
        (askContextRequest "rates" [] (Filters.mk "" none none)) =
      [Chunk.mk "D1" 0 "t" (some "econ") 100] ∧
      sendContextRequest "rates" [] (FilterOptions.mk none none none) = none :=
  unfiltered_mode_candidates "rates" [Chunk.mk "D1" 0 "t" (some "econ") 100]
    (Filters.mk "" none none) (FilterOptions.mk none none none) rfl rfl rfl rfl rfl rfl

end Hitherto
